import Mathlib

/-!
Verification of the KIJ volleyball tournament backend
(`backend/main.py` + `backend/database.py`).

The backend keeps all state in a relational store and reloads it on every
request, so each HTTP handler is a pure function of the loaded state, the
request body, the current wall-clock time, and the success of the durable
write.  We embed that state as association lists keyed by team name / game
key, and each handler as a function returning the response, the new stored
state, and the list of broadcast events it published.
-/

namespace KIJ

/-- `MAX_TEAMS` from `backend/main.py`. -/
def MAX_TEAMS : Nat := 15

/-- A team record as stored (`teams` table / `load_all_teams`). -/
structure Team where
  player1 : String
  player2 : String
  pool : String
deriving Repr, DecidableEq

/-- One set's scores (`game_sets` row / the `"set1"`/`"set2"` dicts).
Scores are Python ints, so we model them as `Int` and prove
non-negativity as an invariant rather than baking it into the type. -/
structure SetScore where
  team1_score : Int
  team2_score : Int
deriving Repr, DecidableEq

/-- A game record as produced by `load_all_games`: team names, the two
sets (`SETS_PER_GAME = 2`), completion flag, winner, and timestamps
(modelled as opaque strings, `none` for SQL NULL). -/
structure Game where
  team1 : String
  team2 : String
  set1 : SetScore
  set2 : SetScore
  completed : Bool
  winner : Option String
  start_time : Option String
  end_time : Option String
deriving Repr, DecidableEq

/-- The durable store: teams keyed by name, games keyed by game key
(the dicts returned by `load_all_teams` / `load_all_games`). -/
structure DB where
  teams : List (String × Team)
  games : List (String × Game)
deriving Repr, DecidableEq

/-- The `set_key` field of a `ScoreUpdate` ("set1" or "set2"). -/
inductive SetKey | set1 | set2
deriving Repr, DecidableEq

/-- The `team` field of a `ScoreUpdate` ("team1" or "team2"). -/
inductive Side | team1 | team2
deriving Repr, DecidableEq

/-- Error responses raised by the handlers (`HTTPException`s, plus the
500 returned when a durable write reports failure). -/
inductive ApiError
  | gameNotFound
  | gameAlreadyCompleted
  | capacityExceeded
  | duplicateName
  | saveFailed
deriving Repr, DecidableEq

/-- WebSocket broadcast messages (`manager.broadcast` payload types). -/
inductive Event
  | teams_updated
  | games_updated
  | score_updated (game_key : String)
  | game_completed
  | tournament_reset
deriving Repr, DecidableEq

/-- Result of one handler invocation: HTTP response (success payload or
error), the state of the durable store afterwards, and the broadcasts
published during the call, in order. -/
structure HandlerResult (ρ : Type) where
  response : Except ApiError ρ
  db : DB
  events : List Event
deriving Repr

/-- `game["sets"][set_key][f"{team}_score"]` read access. -/
def getScore (g : Game) (sk : SetKey) (side : Side) : Int :=
  match sk, side with
  | .set1, .team1 => g.set1.team1_score
  | .set1, .team2 => g.set1.team2_score
  | .set2, .team1 => g.set2.team1_score
  | .set2, .team2 => g.set2.team2_score

/-- `game["sets"][set_key][f"{team}_score"] = v` write access. -/
def setScore (g : Game) (sk : SetKey) (side : Side) (v : Int) : Game :=
  match sk, side with
  | .set1, .team1 => { g with set1 := { g.set1 with team1_score := v } }
  | .set1, .team2 => { g with set1 := { g.set1 with team2_score := v } }
  | .set2, .team1 => { g with set2 := { g.set2 with team1_score := v } }
  | .set2, .team2 => { g with set2 := { g.set2 with team2_score := v } }

/-- `save_game`'s games-table upsert `ON CONFLICT (game_key) DO UPDATE`
only overwrites `completed`, `winner` and `end_time` (and the set rows);
`team1_name`, `team2_name` and `start_time` keep their stored values. -/
def mergeGame (old new : Game) : Game :=
  { old with
    completed := new.completed
    winner := new.winner
    end_time := new.end_time
    set1 := new.set1
    set2 := new.set2 }

/-- `save_game game_key game_data` on the games mapping: insert when the
key is fresh, otherwise upsert via `mergeGame` (both set rows are always
present in the data the handlers pass, so both are upserted). -/
def saveGameTo (games : List (String × Game)) (key : String) (g : Game) :
    List (String × Game) :=
  if (games.lookup key).isSome then
    games.map (fun kv => if kv.1 = key then (kv.1, mergeGame kv.2 g) else kv)
  else
    games ++ [(key, g)]

/-- The set-win tally loop of `complete_game`: for each of the two sets,
the side with the strictly higher score gains one set-win. -/
def tallySetWins (sets : List SetScore) : Nat × Nat :=
  sets.foldl
    (fun acc s =>
      if s.team1_score > s.team2_score then (acc.1 + 1, acc.2)
      else if s.team2_score > s.team1_score then (acc.1, acc.2 + 1)
      else acc)
    (0, 0)

/-- The two sets of a game in order (`for sn in range(1, SETS_PER_GAME + 1)`). -/
def gameSets (g : Game) : List SetScore := [g.set1, g.set2]

/-- Winner computation of `complete_game`: more set-wins wins, equal
set-wins is the sentinel `"Split"`. -/
def determineWinner (g : Game) : String :=
  let t := tallySetWins (gameSets g)
  if t.1 > t.2 then g.team1
  else if t.2 > t.1 then g.team2
  else "Split"

/-- The fresh game dict built by `create_game`: both sets `{0,0}`,
not completed, no winner, `start_time = now`, no end time. -/
def newGame (t1 t2 now : String) : Game :=
  { team1 := t1
    team2 := t2
    set1 := ⟨0, 0⟩
    set2 := ⟨0, 0⟩
    completed := false
    winner := none
    start_time := some now
    end_time := none }

/-- The game key `f"{team1}_vs_{team2}_{timestamp}"`. -/
def gameKeyFor (t1 t2 ts : String) : String :=
  t1 ++ "_vs_" ++ t2 ++ "_" ++ ts

/-- `POST /api/teams` (`create_team`): capacity check, duplicate-name
check, durable insert (`saveOk` is whether `save_team` succeeded), then
a `teams_updated` broadcast.  Returns the created team's name. -/
def create_team (db : DB) (team_name p1 p2 pool : String) (saveOk : Bool) :
    HandlerResult String :=
  if db.teams.length ≥ MAX_TEAMS then ⟨.error .capacityExceeded, db, []⟩
  else if (db.teams.lookup team_name).isSome then ⟨.error .duplicateName, db, []⟩
  else if !saveOk then ⟨.error .saveFailed, db, []⟩
  else
    ⟨.ok team_name,
     { db with teams := db.teams ++ [(team_name, ⟨p1, p2, pool⟩)] },
     [.teams_updated]⟩

/-- `POST /api/games` (`create_game`): builds the key and the fresh game
dict and saves it.  The handler performs no validation of the team names
and ignores `save_game`'s return value: it always broadcasts
`games_updated` and returns success with the locally built game. -/
def create_game (db : DB) (t1 t2 now ts : String) (saveOk : Bool) :
    HandlerResult (String × Game) :=
  let key := gameKeyFor t1 t2 ts
  let g := newGame t1 t2 now
  ⟨.ok (key, g),
   { db with games := if saveOk then saveGameTo db.games key g else db.games },
   [.games_updated]⟩

/-- `POST /api/games/score` (`update_score`): 404 when the key is
unknown, 400 when the game is completed; otherwise clamps the targeted
score to `max(0, current + delta)`, saves (result ignored), broadcasts
`score_updated`, and returns the game as re-loaded from the store. -/
def update_score (db : DB) (game_key : String) (sk : SetKey) (side : Side)
    (delta : Int) (saveOk : Bool) : HandlerResult Game :=
  match db.games.lookup game_key with
  | none => ⟨.error .gameNotFound, db, []⟩
  | some game =>
    if game.completed then ⟨.error .gameAlreadyCompleted, db, []⟩
    else
      let newVal := max 0 (getScore game sk side + delta)
      let game' := setScore game sk side newVal
      let games' := if saveOk then saveGameTo db.games game_key game' else db.games
      ⟨.ok ((games'.lookup game_key).getD game'),
       { db with games := games' },
       [.score_updated game_key]⟩

/-- `POST /api/games/complete` (`complete_game`): 404 when the key is
unknown; otherwise recomputes the winner from the stored set scores
(no completed-check: re-invocation is allowed), sets `completed = true`
and `end_time = now`, saves (result ignored), and broadcasts
`game_completed`.  Returns the computed winner. -/
def complete_game (db : DB) (game_key : String) (now : String) (saveOk : Bool) :
    HandlerResult String :=
  match db.games.lookup game_key with
  | none => ⟨.error .gameNotFound, db, []⟩
  | some game =>
    let w := determineWinner game
    let game' := { game with winner := some w, completed := true, end_time := some now }
    ⟨.ok w,
     { db with games := if saveOk then saveGameTo db.games game_key game' else db.games },
     [.game_completed]⟩

/-- `POST /api/admin/reset` (`reset_tournament`): wipes everything when
the delete succeeds and then broadcasts `tournament_reset`; reports a
500 and broadcasts nothing when it fails. -/
def reset_tournament (db : DB) (deleteOk : Bool) : HandlerResult Unit :=
  if deleteOk then ⟨.ok (), ⟨[], []⟩, [.tournament_reset]⟩
  else ⟨.error .saveFailed, db, []⟩

/-- One row of `calculate_standings`' output. -/
structure Standing where
  team : String
  pool : String
  games_played : Nat
  set_wins : Nat
  set_losses : Nat
  points_for : Int
  points_against : Int
  point_differential : Int
deriving Repr, DecidableEq

/-- The zeroed standings entry `calculate_standings` creates per team. -/
def initStanding (name : String) (td : Team) : Standing :=
  { team := name
    pool := td.pool
    games_played := 0
    set_wins := 0
    set_losses := 0
    points_for := 0
    points_against := 0
    point_differential := 0 }

/-- `standings[t][...] = f(standings[t][...])`: update the entry keyed
`t` in the standings mapping. -/
def updEntry (st : List (String × Standing)) (t : String) (f : Standing → Standing) :
    List (String × Standing) :=
  st.map (fun kv => if kv.1 = t then (kv.1, f kv.2) else kv)

/-- The per-set accumulation body of `calculate_standings`' inner loop:
points for/against for both teams, then the strict-inequality set
win/loss tallies. -/
def applySet (t1 t2 : String) (st : List (String × Standing)) (s : SetScore) :
    List (String × Standing) :=
  let st := updEntry st t1 (fun e =>
    { e with points_for := e.points_for + s.team1_score
             points_against := e.points_against + s.team2_score })
  let st := updEntry st t2 (fun e =>
    { e with points_for := e.points_for + s.team2_score
             points_against := e.points_against + s.team1_score })
  if s.team1_score > s.team2_score then
    updEntry (updEntry st t1 (fun e => { e with set_wins := e.set_wins + 1 }))
      t2 (fun e => { e with set_losses := e.set_losses + 1 })
  else if s.team2_score > s.team1_score then
    updEntry (updEntry st t2 (fun e => { e with set_wins := e.set_wins + 1 }))
      t1 (fun e => { e with set_losses := e.set_losses + 1 })
  else st

/-- The per-game body of `calculate_standings`' outer loop: skip games
not completed or whose team names do not resolve; otherwise bump
`games_played`, accumulate both sets, and recompute the two teams'
`point_differential` from the accumulated totals. -/
def applyGame (st : List (String × Standing)) (g : Game) :
    List (String × Standing) :=
  if !g.completed then st
  else if (st.lookup g.team1).isNone || (st.lookup g.team2).isNone then st
  else
    let st := updEntry st g.team1 (fun e => { e with games_played := e.games_played + 1 })
    let st := updEntry st g.team2 (fun e => { e with games_played := e.games_played + 1 })
    let st := (gameSets g).foldl (applySet g.team1 g.team2) st
    let st := updEntry st g.team1 (fun e =>
      { e with point_differential := e.points_for - e.points_against })
    updEntry st g.team2 (fun e =>
      { e with point_differential := e.points_for - e.points_against })

/-- The sort key comparison of `calculate_standings`' final
`sorted(..., key=lambda x: (x["set_wins"], x["point_differential"]), reverse=True)`:
`a` may come before `b` iff `a`'s key is lexicographically ≥ `b`'s. -/
def standingsLE (a b : Standing) : Bool :=
  decide (b.set_wins < a.set_wins ∨
    (a.set_wins = b.set_wins ∧ b.point_differential ≤ a.point_differential))

/-- The `standings` dict after the accumulation loop over all games
(starting from one zero-initialized entry per registered team, in team
order). -/
def standingsTable (teams : List (String × Team))
    (games : List (String × Game)) : List (String × Standing) :=
  (games.map Prod.snd).foldl applyGame (teams.map (fun kv => (kv.1, initStanding kv.1 kv.2)))

/-- `calculate_standings(teams, games)` from `backend/database.py`:
zero-init one entry per team, fold the per-game accumulation over the
games in mapping order, then stable-sort the entries descending by
`(set_wins, point_differential)`. -/
def calculate_standings (teams : List (String × Team))
    (games : List (String × Game)) : List Standing :=
  ((standingsTable teams games).map Prod.snd).mergeSort standingsLE

/-- A game contributes to the standings iff it is completed and both its
team names resolve among the registered teams. -/
def relevantGame (teams : List (String × Team)) (g : Game) : Bool :=
  g.completed && (teams.lookup g.team1).isSome && (teams.lookup g.team2).isSome

/-- Set-wins for team1, in the words of the spec: the number of set
indices at which team1's score is strictly higher. -/
def specSetWins1 (g : Game) : Nat :=
  ((gameSets g).filter (fun s => s.team2_score < s.team1_score)).length

/-- Set-wins for team2, in the words of the spec. -/
def specSetWins2 (g : Game) : Nat :=
  ((gameSets g).filter (fun s => s.team1_score < s.team2_score)).length

/-- Winner in the words of the spec: the side with strictly more
set-wins, or the sentinel `"Split"` when the set-wins are equal. -/
def specWinner (g : Game) : String :=
  if specSetWins2 g < specSetWins1 g then g.team1
  else if specSetWins1 g < specSetWins2 g then g.team2
  else "Split"

/-- An in-progress game between `t1` and `t2` with given set scores. -/
def exampleGame (t1 t2 : String) (s1 s2 : SetScore) : Game :=
  { team1 := t1
    team2 := t2
    set1 := s1
    set2 := s2
    completed := false
    winner := none
    start_time := none
    end_time := none }

/-! ## Helper lemmas -/

theorem lookup_mem {α : Type} {l : List (String × α)} {k : String} {v : α}
    (h : l.lookup k = some v) : (k, v) ∈ l := by
  rcases List.lookup_eq_some_iff.mp h with ⟨l₁, l₂, rfl, -⟩
  simp

theorem lookup_map_upd {α : Type} {l : List (String × α)} {k : String} {v : α}
    (f : α → α) (h : l.lookup k = some v) :
    (l.map (fun kv => if kv.1 = k then (kv.1, f kv.2) else kv)).lookup k =
      some (f v) := by
  induction l with
  | nil => simp at h
  | cons kv t ih =>
    by_cases hk : kv.1 = k
    · obtain ⟨k', v'⟩ := kv
      simp only at hk
      subst hk
      simp only [List.lookup_cons_self] at h
      obtain rfl : v' = v := by exact Option.some.injEq .. ▸ h.symm ▸ rfl
      simp
    · obtain ⟨k', v'⟩ := kv
      simp only at hk
      have hne : (k == k') = false := by
        simp [Ne.symm hk]
      simp only [List.lookup_cons, hne] at h
      simp only [List.map_cons, if_neg hk, List.lookup_cons, hne]
      exact ih h

theorem lookup_map_upd_ne {α : Type} {l : List (String × α)} {k k' : String}
    (f : α → α) (h : k' ≠ k) :
    (l.map (fun kv => if kv.1 = k then (kv.1, f kv.2) else kv)).lookup k' =
      l.lookup k' := by
  induction l with
  | nil => simp
  | cons kv t ih =>
    obtain ⟨k₀, v₀⟩ := kv
    by_cases hk : k₀ = k
    · subst hk
      have hne : (k' == k₀) = false := by simp [h]
      simp [List.lookup_cons, hne, ih]
    · simp only [List.map_cons, if_neg hk]
      by_cases hk' : k' = k₀
      · subst hk'
        simp
      · have hne : (k' == k₀) = false := by simp [hk']
        simp [List.lookup_cons, hne, ih]

theorem lookup_saveGameTo {games : List (String × Game)} {k : String}
    {g0 : Game} (g : Game) (h : games.lookup k = some g0) :
    (saveGameTo games k g).lookup k = some (mergeGame g0 g) := by
  unfold saveGameTo
  rw [h]
  simp only [Option.isSome_some, if_pos]
  exact lookup_map_upd (fun v => mergeGame v g) h

theorem lookup_saveGameTo_ne {games : List (String × Game)} {k k' : String}
    (g : Game) (h : k' ≠ k) :
    (saveGameTo games k g).lookup k' = games.lookup k' := by
  unfold saveGameTo
  by_cases hs : (games.lookup k).isSome
  · simp only [hs, if_pos]
    exact lookup_map_upd_ne (fun v => mergeGame v g) h
  · simp only [hs, Bool.false_eq_true, if_neg, not_false_iff]
    rw [List.lookup_append]
    have : ([(k, g)] : List (String × Game)).lookup k' = none := by
      have hne : (k' == k) = false := by simp [h]
      simp [List.lookup_cons, hne]
    rw [this]
    cases games.lookup k' <;> rfl

/-- The handler-side winner computation agrees with the spec's
filter-and-count formulation. -/
theorem determineWinner_eq_specWinner (g : Game) :
    determineWinner g = specWinner g := by
  simp only [determineWinner, specWinner, specSetWins1, specSetWins2,
    tallySetWins, gameSets, List.foldl, List.filter]
  by_cases h1 : g.set1.team2_score < g.set1.team1_score <;>
  by_cases h1' : g.set1.team1_score < g.set1.team2_score <;>
  by_cases h2 : g.set2.team2_score < g.set2.team1_score <;>
  by_cases h2' : g.set2.team1_score < g.set2.team2_score <;>
  simp [h1, h1', h2, h2', gt_iff_lt] <;> omega

/-! ## Claims -/

/-- C1.  `complete_game` determines the winner exactly as the spec's
strict-set-win rule prescribes (for every stored game), and on the
concrete score lines: sets {21,19}/{18,21} give `"Split"`, and sets
{21,15}/{21,18} give team1. -/
theorem complete_game_winner_rule (db : DB) (k now : String) (saveOk : Bool)
    (g : Game) (h : db.games.lookup k = some g) :
    (complete_game db k now saveOk).response = Except.ok (specWinner g) ∧
    (∀ t1 t2 now2 so2,
      (complete_game ⟨[], [("g", exampleGame t1 t2 ⟨21, 19⟩ ⟨18, 21⟩)]⟩
        "g" now2 so2).response = Except.ok "Split") ∧
    (∀ t1 t2 now2 so2,
      (complete_game ⟨[], [("g", exampleGame t1 t2 ⟨21, 15⟩ ⟨21, 18⟩)]⟩
        "g" now2 so2).response = Except.ok t1) := by
  refine ⟨?_, ?_, ?_⟩
  · simp [complete_game, h, determineWinner_eq_specWinner]
  · intro t1 t2 now2 so2
    simp [complete_game, determineWinner, tallySetWins, gameSets, exampleGame]
  · intro t1 t2 now2 so2
    simp [complete_game, determineWinner, tallySetWins, gameSets, exampleGame]

/-- Witness for C1 at a concrete store. -/
theorem complete_game_winner_rule_witness :
    (complete_game ⟨[], [("g", exampleGame "A" "B" ⟨21, 19⟩ ⟨18, 21⟩)]⟩
      "g" "t" true).response =
      Except.ok (specWinner (exampleGame "A" "B" ⟨21, 19⟩ ⟨18, 21⟩)) :=
  (complete_game_winner_rule ⟨[], [("g", exampleGame "A" "B" ⟨21, 19⟩ ⟨18, 21⟩)]⟩
    "g" "t" true (exampleGame "A" "B" ⟨21, 19⟩ ⟨18, 21⟩) (by simp)).1

theorem mergeGame_setScore (g : Game) (sk : SetKey) (side : Side) (v : Int) :
    mergeGame g (setScore g sk side v) = setScore g sk side v := by
  cases sk <;> cases side <;> rfl

theorem setScore_end_time (g : Game) (sk : SetKey) (side : Side) (v : Int) :
    (setScore g sk side v).end_time = g.end_time := by
  cases sk <;> cases side <;> rfl

/-- C10.  `update_score` puts no restriction on `delta`: on any stored
non-completed game, any integer delta succeeds, and the targeted score
becomes `max 0 (current + delta)` both in the response and in the store. -/
theorem update_score_accepts_any_delta (db : DB) (k : String) (sk : SetKey)
    (side : Side) (delta : Int) (g : Game)
    (hfound : db.games.lookup k = some g) (hnc : g.completed = false) :
    (update_score db k sk side delta true).response =
      Except.ok (setScore g sk side (max 0 (getScore g sk side + delta))) ∧
    (update_score db k sk side delta true).db.games.lookup k =
      some (setScore g sk side (max 0 (getScore g sk side + delta))) := by
  have hsave := lookup_saveGameTo
    (setScore g sk side (max 0 (getScore g sk side + delta))) hfound
  rw [mergeGame_setScore] at hsave
  constructor
  · simp [update_score, hfound, hnc, hsave]
  · simp [update_score, hfound, hnc, hsave]

/-- Witness for C10 at a concrete store, with the out-of-range delta
`-100` applied to a score of 19. -/
theorem update_score_accepts_any_delta_witness :
    (update_score ⟨[], [("k", exampleGame "A" "B" ⟨21, 19⟩ ⟨0, 0⟩)]⟩
      "k" SetKey.set1 Side.team2 (-100) true).response =
      Except.ok (setScore (exampleGame "A" "B" ⟨21, 19⟩ ⟨0, 0⟩)
        SetKey.set1 Side.team2
        (max 0 (getScore (exampleGame "A" "B" ⟨21, 19⟩ ⟨0, 0⟩)
          SetKey.set1 Side.team2 + (-100)))) :=
  (update_score_accepts_any_delta ⟨[], [("k", exampleGame "A" "B" ⟨21, 19⟩ ⟨0, 0⟩)]⟩
    "k" SetKey.set1 Side.team2 (-100) (exampleGame "A" "B" ⟨21, 19⟩ ⟨0, 0⟩)
    (by simp) rfl).1

/-- C3.  `update_score` on an unknown key fails with `GameNotFound`, and
on a completed game fails with `GameAlreadyCompleted`; in both cases the
store is left fully unchanged and nothing is broadcast. -/
theorem update_score_error_cases (db : DB) (k : String) (sk : SetKey)
    (side : Side) (delta : Int) (saveOk : Bool) :
    (db.games.lookup k = none →
      (update_score db k sk side delta saveOk).response =
        Except.error ApiError.gameNotFound ∧
      (update_score db k sk side delta saveOk).db = db ∧
      (update_score db k sk side delta saveOk).events = []) ∧
    (∀ g, db.games.lookup k = some g → g.completed = true →
      (update_score db k sk side delta saveOk).response =
        Except.error ApiError.gameAlreadyCompleted ∧
      (update_score db k sk side delta saveOk).db = db ∧
      (update_score db k sk side delta saveOk).events = []) := by
  constructor
  · intro h
    refine ⟨?_, ?_, ?_⟩ <;> simp [update_score, h]
  · intro g h hc
    refine ⟨?_, ?_, ?_⟩ <;> simp [update_score, h, hc]

/-- Witness for C3: adjusting a completed game fails and changes nothing. -/
theorem update_score_error_cases_witness :
    (update_score ⟨[], [("k", { exampleGame "A" "B" ⟨21, 15⟩ ⟨21, 18⟩ with
        completed := true })]⟩ "k" SetKey.set1 Side.team1 1 true).response =
      Except.error ApiError.gameAlreadyCompleted :=
  ((update_score_error_cases ⟨[], [("k", { exampleGame "A" "B" ⟨21, 15⟩ ⟨21, 18⟩ with
      completed := true })]⟩ "k" SetKey.set1 Side.team1 1 true).2
    { exampleGame "A" "B" ⟨21, 15⟩ ⟨21, 18⟩ with completed := true }
    (by simp) rfl).1

/-- One `adjustScore` request together with the outcome of its durable
write. -/
structure AdjustOp where
  game_key : String
  set_key : SetKey
  side : Side
  delta : Int
  saveOk : Bool

/-- The store after one `update_score` call. -/
def applyAdjust (db : DB) (op : AdjustOp) : DB :=
  (update_score db op.game_key op.set_key op.side op.delta op.saveOk).db

/-- The store after a sequence of `update_score` calls. -/
def runAdjusts (db : DB) (ops : List AdjustOp) : DB :=
  ops.foldl applyAdjust db

/-- All four set scores of a game are non-negative. -/
def scoresNonneg (g : Game) : Prop :=
  0 ≤ g.set1.team1_score ∧ 0 ≤ g.set1.team2_score ∧
  0 ≤ g.set2.team1_score ∧ 0 ≤ g.set2.team2_score

instance (g : Game) : Decidable (scoresNonneg g) := by
  unfold scoresNonneg; infer_instance

/-- Every set score of every stored game is non-negative. -/
def dbScoresNonneg (db : DB) : Prop :=
  ∀ kg ∈ db.games, scoresNonneg kg.2

instance (db : DB) : Decidable (dbScoresNonneg db) := by
  unfold dbScoresNonneg; infer_instance

theorem scoresNonneg_setScore {g : Game} (hg : scoresNonneg g)
    (sk : SetKey) (side : Side) {v : Int} (hv : 0 ≤ v) :
    scoresNonneg (setScore g sk side v) := by
  obtain ⟨h1, h2, h3, h4⟩ := hg
  cases sk <;> cases side <;> exact ⟨by assumption, by assumption, by assumption, by assumption⟩

theorem scoresNonneg_mergeGame {old new : Game} (h : scoresNonneg new) :
    scoresNonneg (mergeGame old new) := h

theorem saveGameTo_nonneg {games : List (String × Game)} {k : String}
    {g : Game} (hall : ∀ kg ∈ games, scoresNonneg kg.2) (hg : scoresNonneg g) :
    ∀ kg ∈ saveGameTo games k g, scoresNonneg kg.2 := by
  intro kg hkg
  unfold saveGameTo at hkg
  by_cases hs : (games.lookup k).isSome
  · simp only [hs, if_pos] at hkg
    rcases List.mem_map.mp hkg with ⟨kv, hmem, heq⟩
    by_cases hk : kv.1 = k
    · rw [if_pos hk] at heq
      rw [← heq]
      exact scoresNonneg_mergeGame hg
    · rw [if_neg hk] at heq
      rw [← heq]
      exact hall kv hmem
  · simp only [hs, Bool.false_eq_true, if_neg, not_false_iff, List.mem_append,
      List.mem_singleton] at hkg
    rcases hkg with hkg | rfl
    · exact hall kg hkg
    · exact hg

theorem applyAdjust_nonneg {db : DB} (op : AdjustOp) (h : dbScoresNonneg db) :
    dbScoresNonneg (applyAdjust db op) := by
  unfold applyAdjust update_score
  cases hfound : db.games.lookup op.game_key with
  | none => exact h
  | some game =>
    by_cases hc : game.completed
    · simp only [hc, if_pos]
      exact h
    · simp only [hc, Bool.false_eq_true, if_neg, not_false_iff]
      by_cases hso : op.saveOk
      · simp only [hso, if_pos]
        intro kg hkg
        refine saveGameTo_nonneg h ?_ kg hkg
        exact scoresNonneg_setScore (h _ (lookup_mem hfound)) _ _ (le_max_left 0 _)
      · simp only [hso, Bool.false_eq_true, if_neg, not_false_iff]
        exact h

/-- C2.  Score non-negativity: a freshly created game has all scores
zero (hence non-negative), `create_game` preserves store-wide
non-negativity, and any sequence of `update_score` calls (arbitrary
deltas — the `max 0` clamp makes a decrement at zero a no-op floor)
preserves store-wide non-negativity. -/
theorem scores_never_negative :
    (∀ t1 t2 now, scoresNonneg (newGame t1 t2 now)) ∧
    (∀ db t1 t2 now ts saveOk, dbScoresNonneg db →
      dbScoresNonneg ((create_game db t1 t2 now ts saveOk).db)) ∧
    (∀ db ops, dbScoresNonneg db → dbScoresNonneg (runAdjusts db ops)) := by
  refine ⟨?_, ?_, ?_⟩
  · intro t1 t2 now
    exact ⟨le_refl 0, le_refl 0, le_refl 0, le_refl 0⟩
  · intro db t1 t2 now ts saveOk h
    unfold create_game
    by_cases hso : saveOk
    · simp only [hso, if_pos]
      exact saveGameTo_nonneg h ⟨le_refl 0, le_refl 0, le_refl 0, le_refl 0⟩
    · simp only [hso, Bool.false_eq_true, if_neg, not_false_iff]
      exact h
  · intro db ops
    induction ops generalizing db with
    | nil => exact fun h => h
    | cons op tl ih =>
      intro h
      exact ih _ (applyAdjust_nonneg op h)

/-- Witness for C2: a creation followed by increments and a decrement
at zero leaves every stored score non-negative. -/
theorem scores_never_negative_witness :
    dbScoresNonneg ((create_game ⟨[], []⟩ "A" "B" "t" "ts" true).db) ∧
    dbScoresNonneg (runAdjusts ⟨[], [("k", newGame "A" "B" "t")]⟩
      [⟨"k", SetKey.set1, Side.team1, 1, true⟩,
       ⟨"k", SetKey.set1, Side.team2, -1, true⟩,
       ⟨"k", SetKey.set2, Side.team1, -100, true⟩]) :=
  ⟨scores_never_negative.2.1 ⟨[], []⟩ "A" "B" "t" "ts" true (by decide),
   scores_never_negative.2.2 ⟨[], [("k", newGame "A" "B" "t")]⟩ _ (by decide)⟩

/-- C4 counterexample.  With no teams registered at all and the same
name on both sides, `create_game` still succeeds — it does not fail with
`InvalidTeams` (no such check, or error kind, exists in the handler). -/
theorem create_game_no_validation_cex :
    (create_game ⟨[], []⟩ "A" "A" "t" "ts" true).response =
      Except.ok ("A_vs_A_ts", newGame "A" "A" "t") := by
  rfl

/-- C4 amended.  `create_game` performs no validation of the team names:
for every store and every pair of names (equal, unregistered, or
otherwise) it succeeds, returning the generated key and the fresh game,
and broadcasts `games_updated`. -/
theorem create_game_always_succeeds (db : DB) (t1 t2 now ts : String)
    (saveOk : Bool) :
    (create_game db t1 t2 now ts saveOk).response =
      Except.ok (gameKeyFor t1 t2 ts, newGame t1 t2 now) ∧
    (create_game db t1 t2 now ts saveOk).events = [Event.games_updated] :=
  ⟨rfl, rfl⟩

/-- C5.  The game handlers ignore `save_game`'s result: when the durable
write fails, `update_score` still reports success (with the stale stored
game), broadcasts `score_updated`, `complete_game` still reports the
winner and broadcasts `game_completed`, and `create_game` still reports
success and broadcasts `games_updated`. -/
theorem broadcast_despite_failed_save :
    (update_score ⟨[], [("k", exampleGame "A" "B" ⟨3, 4⟩ ⟨0, 0⟩)]⟩
        "k" SetKey.set1 Side.team1 1 false).response =
      Except.ok (exampleGame "A" "B" ⟨3, 4⟩ ⟨0, 0⟩) ∧
    (update_score ⟨[], [("k", exampleGame "A" "B" ⟨3, 4⟩ ⟨0, 0⟩)]⟩
        "k" SetKey.set1 Side.team1 1 false).events =
      [Event.score_updated "k"] ∧
    (complete_game ⟨[], [("k", exampleGame "A" "B" ⟨3, 4⟩ ⟨0, 0⟩)]⟩
        "k" "t2" false).response = Except.ok "B" ∧
    (complete_game ⟨[], [("k", exampleGame "A" "B" ⟨3, 4⟩ ⟨0, 0⟩)]⟩
        "k" "t2" false).events = [Event.game_completed] ∧
    (create_game ⟨[], []⟩ "A" "B" "t" "ts" false).events =
      [Event.games_updated] := by
  refine ⟨?_, rfl, ?_, rfl, rfl⟩ <;> rfl

/-- C6.  `create_team`: at or above `MAX_TEAMS` (15) registered teams it
fails with capacity exceeded; on an exact-match duplicate name it fails
with duplicate name; both failures change nothing and broadcast nothing.
Otherwise (durable write succeeding) the team is appended to the store,
its name is returned, and exactly a `teams_updated` broadcast is
published.  The team count never exceeds `MAX_TEAMS`. -/
theorem create_team_spec (db : DB) (name p1 p2 pool : String) (saveOk : Bool) :
    (db.teams.length ≥ MAX_TEAMS →
      (create_team db name p1 p2 pool saveOk).response =
        Except.error ApiError.capacityExceeded ∧
      (create_team db name p1 p2 pool saveOk).db = db ∧
      (create_team db name p1 p2 pool saveOk).events = []) ∧
    (db.teams.length < MAX_TEAMS → (db.teams.lookup name).isSome →
      (create_team db name p1 p2 pool saveOk).response =
        Except.error ApiError.duplicateName ∧
      (create_team db name p1 p2 pool saveOk).db = db ∧
      (create_team db name p1 p2 pool saveOk).events = []) ∧
    (db.teams.length < MAX_TEAMS → db.teams.lookup name = none → saveOk = true →
      (create_team db name p1 p2 pool saveOk).response = Except.ok name ∧
      (create_team db name p1 p2 pool saveOk).db.teams =
        db.teams ++ [(name, ⟨p1, p2, pool⟩)] ∧
      (create_team db name p1 p2 pool saveOk).events = [Event.teams_updated]) ∧
    (db.teams.length ≤ MAX_TEAMS →
      (create_team db name p1 p2 pool saveOk).db.teams.length ≤ MAX_TEAMS) := by
  refine ⟨?_, ?_, ?_, ?_⟩
  · intro h
    refine ⟨?_, ?_, ?_⟩ <;> simp [create_team, h]
  · intro h hdup
    refine ⟨?_, ?_, ?_⟩ <;> simp [create_team, Nat.not_le.mpr h, hdup]
  · intro h hfresh hso
    subst hso
    refine ⟨?_, ?_, ?_⟩ <;> simp [create_team, Nat.not_le.mpr h, hfresh]
  · intro h
    by_cases hcap : db.teams.length ≥ MAX_TEAMS
    · simp [create_team, hcap]
      omega
    · by_cases hdup : (db.teams.lookup name).isSome
      · simp [create_team, hcap, hdup]
        omega
      · by_cases hso : saveOk
        · simp [create_team, hcap, hdup, hso]
          omega
        · simp [create_team, hcap, hdup, hso]
          omega

/-- Witness for C6: registering a fresh team in an empty store succeeds
and broadcasts `teams_updated`. -/
theorem create_team_spec_witness :
    (create_team ⟨[], []⟩ "A" "p" "q" "A" true).response = Except.ok "A" :=
  ((create_team_spec ⟨[], []⟩ "A" "p" "q" "A" true).2.2.1
    (by decide) rfl rfl).1

theorem determineWinner_update (g : Game) (w' : Option String) (c : Bool)
    (e : Option String) :
    determineWinner { g with winner := w', completed := c, end_time := e } =
      determineWinner g := rfl

/-- C8.  `complete_game` is idempotent and safe to retry: invoked again
on the already-completed game it succeeds with the same winner as the
first invocation, and the game's `start_time` is unchanged (the upsert
never overwrites `start_time`). -/
theorem complete_game_idempotent (db : DB) (k now1 now2 : String) (g : Game)
    (h : db.games.lookup k = some g) :
    (complete_game db k now1 true).response = Except.ok (determineWinner g) ∧
    (complete_game (complete_game db k now1 true).db k now2 true).response =
      (complete_game db k now1 true).response ∧
    ((complete_game (complete_game db k now1 true).db k now2 true).db.games.lookup k).map
      Game.start_time = some g.start_time := by
  have h1 : (complete_game db k now1 true).db.games.lookup k =
      some { g with winner := some (determineWinner g), completed := true,
                    end_time := some now1 } := by
    simp only [complete_game, h, if_pos]
    exact lookup_saveGameTo _ h
  have h2 : (complete_game (complete_game db k now1 true).db k now2 true).db.games.lookup k =
      some { g with winner := some (determineWinner g), completed := true,
                    end_time := some now2 } := by
    conv_lhs => rw [complete_game, h1]
    simp only [if_pos]
    have h2' := lookup_saveGameTo
      { g with winner := some (determineWinner g), completed := true,
               end_time := some now2 } h1
    exact h2'
  refine ⟨?_, ?_, ?_⟩
  · simp [complete_game, h]
  · conv_lhs => rw [complete_game, h1]
    simp [complete_game, h, determineWinner_update]
  · rw [h2]
    rfl

/-- Witness for C8 at a concrete store. -/
theorem complete_game_idempotent_witness :
    (complete_game (complete_game ⟨[], [("k", exampleGame "A" "B" ⟨21, 15⟩ ⟨21, 18⟩)]⟩
        "k" "t1" true).db "k" "t2" true).response =
      (complete_game ⟨[], [("k", exampleGame "A" "B" ⟨21, 15⟩ ⟨21, 18⟩)]⟩
        "k" "t1" true).response :=
  (complete_game_idempotent ⟨[], [("k", exampleGame "A" "B" ⟨21, 15⟩ ⟨21, 18⟩)]⟩
    "k" "t1" "t2" (exampleGame "A" "B" ⟨21, 15⟩ ⟨21, 18⟩) (by simp)).2.1

/-- C9 counterexample.  Completing a game at time `"t1"` sets its
`end_time` to `"t1"`, but re-invoking `complete_game` at time `"t2"`
overwrites the stored `end_time` with `"t2"`: `end_time` is not set
exactly once. -/
theorem end_time_overwritten_cex :
    ((complete_game ⟨[], [("k", exampleGame "A" "B" ⟨1, 0⟩ ⟨0, 0⟩)]⟩
        "k" "t1" true).db.games.lookup "k").map Game.end_time =
      some (some "t1") ∧
    ((complete_game (complete_game ⟨[], [("k", exampleGame "A" "B" ⟨1, 0⟩ ⟨0, 0⟩)]⟩
        "k" "t1" true).db "k" "t2" true).db.games.lookup "k").map Game.end_time =
      some (some "t2") := by
  exact ⟨rfl, rfl⟩

/-- C9 amended.  `end_time` is `NULL` at creation; every `complete_game`
invocation on a stored game sets the stored `end_time` to the current
time — so re-completion overwrites it with the newer timestamp — and
`update_score` never changes any game's `end_time`. -/
theorem end_time_lifecycle :
    (∀ t1 t2 now, (newGame t1 t2 now).end_time = none) ∧
    (∀ db k now g, db.games.lookup k = some g →
      ((complete_game db k now true).db.games.lookup k).map Game.end_time =
        some (some now)) ∧
    (∀ db k sk side delta saveOk k',
      ((update_score db k sk side delta saveOk).db.games.lookup k').map Game.end_time =
        (db.games.lookup k').map Game.end_time) := by
  refine ⟨fun _ _ _ => rfl, ?_, ?_⟩
  · intro db k now g h
    simp only [complete_game, h, if_pos]
    rw [lookup_saveGameTo _ h]
    rfl
  · intro db k sk side delta saveOk k'
    unfold update_score
    cases hfound : db.games.lookup k with
    | none => rfl
    | some game =>
      by_cases hc : game.completed
      · simp [hc]
      · simp only [hc, Bool.false_eq_true, if_neg, not_false_iff]
        by_cases hso : saveOk
        · simp only [hso, if_pos]
          by_cases hk : k' = k
          · subst hk
            rw [lookup_saveGameTo _ hfound, hfound]
            simp [mergeGame, setScore_end_time]
          · rw [lookup_saveGameTo_ne _ hk]
        · simp only [hso, Bool.false_eq_true, if_neg, not_false_iff]

/-- Witness for C9's amended statement at a concrete store. -/
theorem end_time_lifecycle_witness :
    ((complete_game ⟨[], [("g", exampleGame "A" "B" ⟨2, 1⟩ ⟨0, 0⟩)]⟩
        "g" "now" true).db.games.lookup "g").map Game.end_time =
      some (some "now") :=
  end_time_lifecycle.2.1 ⟨[], [("g", exampleGame "A" "B" ⟨2, 1⟩ ⟨0, 0⟩)]⟩
    "g" "now" (exampleGame "A" "B" ⟨2, 1⟩ ⟨0, 0⟩) (by simp)

theorem updEntry_map_fst (st : List (String × Standing)) (t : String)
    (f : Standing → Standing) :
    (updEntry st t f).map Prod.fst = st.map Prod.fst := by
  induction st with
  | nil => rfl
  | cons kv tl ih =>
    simp only [updEntry, List.map_cons, List.cons.injEq] at ih ⊢
    constructor
    · by_cases h : kv.1 = t <;> simp [h]
    · exact ih

theorem updEntry_map_team (st : List (String × Standing)) (t : String)
    (f : Standing → Standing) (hf : ∀ e, (f e).team = e.team) :
    (updEntry st t f).map (fun kv => kv.2.team) =
      st.map (fun kv => kv.2.team) := by
  induction st with
  | nil => rfl
  | cons kv tl ih =>
    simp only [updEntry, List.map_cons, List.cons.injEq] at ih ⊢
    constructor
    · by_cases h : kv.1 = t <;> simp [h, hf]
    · exact ih

theorem applySet_map_fst (t1 t2 : String) (st : List (String × Standing))
    (s : SetScore) :
    (applySet t1 t2 st s).map Prod.fst = st.map Prod.fst := by
  simp only [applySet]
  split_ifs <;> simp only [updEntry_map_fst]

theorem applySet_map_team (t1 t2 : String) (st : List (String × Standing))
    (s : SetScore) :
    (applySet t1 t2 st s).map (fun kv => kv.2.team) =
      st.map (fun kv => kv.2.team) := by
  simp only [applySet]
  split_ifs <;>
    (repeat rw [updEntry_map_team]) <;> exact fun e => rfl

theorem applyGame_map_fst (st : List (String × Standing)) (g : Game) :
    (applyGame st g).map Prod.fst = st.map Prod.fst := by
  simp only [applyGame]
  split_ifs
  · rfl
  · rfl
  · simp only [gameSets, List.foldl, applySet_map_fst, updEntry_map_fst]

theorem applyGame_map_team (st : List (String × Standing)) (g : Game) :
    (applyGame st g).map (fun kv => kv.2.team) =
      st.map (fun kv => kv.2.team) := by
  simp only [applyGame]
  split_ifs
  · rfl
  · rfl
  · simp only [gameSets, List.foldl]
    rw [updEntry_map_team, updEntry_map_team, applySet_map_team, applySet_map_team,
      updEntry_map_team, updEntry_map_team] <;> exact fun e => rfl

theorem foldl_applyGame_map_fst (gs : List Game) :
    ∀ st : List (String × Standing),
      (gs.foldl applyGame st).map Prod.fst = st.map Prod.fst := by
  induction gs with
  | nil => intro st; rfl
  | cons g tl ih =>
    intro st
    rw [List.foldl_cons, ih, applyGame_map_fst]

theorem foldl_applyGame_map_team (gs : List Game) :
    ∀ st : List (String × Standing),
      (gs.foldl applyGame st).map (fun kv => kv.2.team) =
        st.map (fun kv => kv.2.team) := by
  induction gs with
  | nil => intro st; rfl
  | cons g tl ih =>
    intro st
    rw [List.foldl_cons, ih, applyGame_map_team]

theorem mem_updEntry {st : List (String × Standing)} {t : String}
    {f : Standing → Standing} {kv : String × Standing}
    (h : kv ∈ updEntry st t f) :
    (kv.1 ≠ t ∧ kv ∈ st) ∨ ∃ v, (t, v) ∈ st ∧ kv = (t, f v) := by
  rcases List.mem_map.mp h with ⟨⟨k0, v0⟩, hmem, heq⟩
  dsimp only at heq
  by_cases hk : k0 = t
  · subst hk
    rw [if_pos rfl] at heq
    right
    exact ⟨v0, hmem, heq.symm⟩
  · rw [if_neg hk] at heq
    left
    rw [← heq]
    exact ⟨hk, hmem⟩

theorem mem_updEntry_of_ne {st : List (String × Standing)} {t : String}
    {f : Standing → Standing} {kv : String × Standing}
    (h : kv ∈ updEntry st t f) (hne : kv.1 ≠ t) : kv ∈ st := by
  rcases mem_updEntry h with ⟨-, hmem⟩ | ⟨v, -, heq⟩
  · exact hmem
  · exact absurd (by rw [heq]) hne

theorem mem_applySet_of_ne {t1 t2 : String} {st : List (String × Standing)}
    {s : SetScore} {kv : String × Standing}
    (h : kv ∈ applySet t1 t2 st s) (h1 : kv.1 ≠ t1) (h2 : kv.1 ≠ t2) :
    kv ∈ st := by
  simp only [applySet] at h
  split_ifs at h
  · exact mem_updEntry_of_ne (mem_updEntry_of_ne
      (mem_updEntry_of_ne (mem_updEntry_of_ne h h2) h1) h2) h1
  · exact mem_updEntry_of_ne (mem_updEntry_of_ne
      (mem_updEntry_of_ne (mem_updEntry_of_ne h h1) h2) h2) h1
  · exact mem_updEntry_of_ne (mem_updEntry_of_ne h h2) h1

/-- All entries of a standings table satisfy
`point_differential = points_for - points_against`. -/
def pdOK (st : List (String × Standing)) : Prop :=
  ∀ kv ∈ st, kv.2.point_differential = kv.2.points_for - kv.2.points_against

theorem pdOK_applyGame {st : List (String × Standing)} {g : Game}
    (h : pdOK st) : pdOK (applyGame st g) := by
  intro kv hkv
  simp only [applyGame] at hkv
  split_ifs at hkv
  · exact h kv hkv
  · exact h kv hkv
  · rcases mem_updEntry hkv with ⟨hne2, hkv2⟩ | ⟨v, -, rfl⟩
    · rcases mem_updEntry hkv2 with ⟨hne1, hkv3⟩ | ⟨v, -, rfl⟩
      · simp only [gameSets, List.foldl] at hkv3
        exact h kv (mem_updEntry_of_ne (mem_updEntry_of_ne
          (mem_applySet_of_ne (mem_applySet_of_ne hkv3 hne1 hne2) hne1 hne2)
          hne2) hne1)
      · rfl
    · rfl

theorem pdOK_standingsTable (teams : List (String × Team))
    (games : List (String × Game)) : pdOK (standingsTable teams games) := by
  unfold standingsTable
  have hinit : pdOK (teams.map (fun kv => (kv.1, initStanding kv.1 kv.2))) := by
    intro kv hkv
    rcases List.mem_map.mp hkv with ⟨⟨k0, v0⟩, -, rfl⟩
    rfl
  generalize teams.map (fun kv => (kv.1, initStanding kv.1 kv.2)) = st at hinit ⊢
  induction games.map Prod.snd generalizing st with
  | nil => exact hinit
  | cons g tl ih =>
    rw [List.foldl_cons]
    exact ih _ (pdOK_applyGame hinit)

theorem standingsLE_trans (a b c : Standing) (hab : standingsLE a b)
    (hbc : standingsLE b c) : standingsLE a c := by
  simp only [standingsLE, decide_eq_true_eq] at *
  omega

theorem standingsLE_total (a b : Standing) :
    standingsLE a b || standingsLE b a := by
  simp only [standingsLE, Bool.or_eq_true, decide_eq_true_eq]
  omega

theorem mem_keys_lookup {α : Type} {l : List (String × α)} {t : String} :
    (l.lookup t).isSome ↔ t ∈ l.map Prod.fst := by
  rw [List.lookup_isSome_iff]
  simp only [List.mem_map]
  constructor
  · rintro ⟨p, hp, he⟩
    exact ⟨p, hp, (beq_iff_eq.mp he).symm⟩
  · rintro ⟨p, hp, he⟩
    exact ⟨p, hp, beq_iff_eq.mpr he.symm⟩

theorem applyGame_skip {teams : List (String × Team)}
    {st : List (String × Standing)} {g : Game}
    (hkeys : st.map Prod.fst = teams.map Prod.fst)
    (h : relevantGame teams g = false) : applyGame st g = st := by
  simp only [applyGame]
  by_cases hc : g.completed
  · simp only [relevantGame, hc, Bool.true_and, Bool.and_eq_false_iff] at h
    have hlift : ∀ x : String, (st.lookup x).isSome ↔ (teams.lookup x).isSome := by
      intro x
      rw [mem_keys_lookup, mem_keys_lookup, hkeys]
    have hguard : (st.lookup g.team1).isNone ∨ (st.lookup g.team2).isNone := by
      rcases h with h | h
      · left
        rw [Option.isNone_iff_eq_none, ← Option.not_isSome_iff_eq_none]
        intro hs
        rw [hlift g.team1, h] at hs
        exact Bool.false_ne_true hs
      · right
        rw [Option.isNone_iff_eq_none, ← Option.not_isSome_iff_eq_none]
        intro hs
        rw [hlift g.team2, h] at hs
        exact Bool.false_ne_true hs
    have : ((st.lookup g.team1).isNone || (st.lookup g.team2).isNone) = true := by
      rcases hguard with h' | h' <;> simp [h']
    simp [hc, this]
  · simp [hc]

theorem foldl_applyGame_filter (teams : List (String × Team)) (gs : List Game) :
    ∀ st : List (String × Standing), st.map Prod.fst = teams.map Prod.fst →
      gs.foldl applyGame st = (gs.filter (relevantGame teams)).foldl applyGame st := by
  induction gs with
  | nil => intro st _; rfl
  | cons g tl ih =>
    intro st h
    by_cases hg : relevantGame teams g
    · simp only [List.filter_cons, hg, if_pos, List.foldl_cons]
      exact ih _ (by rw [applyGame_map_fst]; exact h)
    · have hg' : relevantGame teams g = false := by simpa using hg
      simp only [List.filter_cons, hg', Bool.false_eq_true, if_neg, not_false_iff,
        List.foldl_cons]
      rw [applyGame_skip h hg']
      exact ih st h

theorem filter_map_snd (games : List (String × Game)) (p : Game → Bool) :
    (games.filter (fun kg => p kg.2)).map Prod.snd =
      (games.map Prod.snd).filter p := by
  induction games with
  | nil => rfl
  | cons kv tl ih =>
    by_cases h : p kv.2 <;> simp [List.filter_cons, h, ih]

/-- C7.  `calculate_standings` is a pure function (identical inputs give
identical output), its output is sorted descending lexicographically by
`(set_wins, point_differential)`, every output row satisfies
`point_differential = points_for - points_against`, the output rows are
exactly one per registered team, and only completed games whose two team
names both resolve contribute — dropping all other games changes
nothing. -/
theorem calculate_standings_spec (teams : List (String × Team))
    (games : List (String × Game)) :
    calculate_standings teams games = calculate_standings teams games ∧
    List.Pairwise (fun a b => standingsLE a b = true)
      (calculate_standings teams games) ∧
    (∀ s ∈ calculate_standings teams games,
      s.point_differential = s.points_for - s.points_against) ∧
    ((calculate_standings teams games).map Standing.team).Perm
      (teams.map Prod.fst) ∧
    calculate_standings teams games =
      calculate_standings teams
        (games.filter (fun kg => relevantGame teams kg.2)) := by
  have hinitkeys : (teams.map (fun kv => (kv.1, initStanding kv.1 kv.2))).map
      Prod.fst = teams.map Prod.fst := by
    rw [List.map_map]
    have : (Prod.fst ∘ fun kv : String × Team => (kv.1, initStanding kv.1 kv.2)) =
        Prod.fst := by
      funext kv
      rfl
    rw [this]
  have hmapteam : (standingsTable teams games).map (fun kv => kv.2.team) =
      teams.map Prod.fst := by
    unfold standingsTable
    rw [foldl_applyGame_map_team, List.map_map]
    have : ((fun kv : String × Standing => kv.2.team) ∘
        fun kv : String × Team => (kv.1, initStanding kv.1 kv.2)) = Prod.fst := by
      funext kv
      rfl
    rw [this]
  refine ⟨rfl, ?_, ?_, ?_, ?_⟩
  · exact List.sorted_mergeSort standingsLE_trans standingsLE_total _
  · intro s hs
    unfold calculate_standings at hs
    rw [List.mem_mergeSort] at hs
    rcases List.mem_map.mp hs with ⟨kv, hkv, rfl⟩
    exact pdOK_standingsTable teams games kv hkv
  · unfold calculate_standings
    have hperm := (List.mergeSort_perm ((standingsTable teams games).map Prod.snd)
      standingsLE).map Standing.team
    refine hperm.trans ?_
    rw [List.map_map]
    show (standingsTable teams games).map (fun kv => kv.2.team) |>.Perm
      (teams.map Prod.fst)
    rw [hmapteam]
  · unfold calculate_standings standingsTable
    rw [filter_map_snd games (relevantGame teams)]
    rw [foldl_applyGame_filter teams (games.map Prod.snd)
      (teams.map (fun kv => (kv.1, initStanding kv.1 kv.2))) hinitkeys]

/-- Witness for C7: the accumulated row for team `"A"` after one
completed 25-20 / 25-23 game satisfies the point-differential equation. -/
theorem calculate_standings_spec_witness :
    (Standing.mk "A" "A" 1 2 0 50 43 7).point_differential =
      (Standing.mk "A" "A" 1 2 0 50 43 7).points_for -
        (Standing.mk "A" "A" 1 2 0 50 43 7).points_against :=
  (calculate_standings_spec
    [("A", ⟨"", "", "A"⟩), ("B", ⟨"", "", "A"⟩)]
    [("g", { exampleGame "A" "B" ⟨25, 20⟩ ⟨25, 23⟩ with completed := true })]).2.2.1
    (Standing.mk "A" "A" 1 2 0 50 43 7)
    (by unfold calculate_standings
        rw [List.mem_mergeSort]
        decide)

end KIJ
